import Mathlib

/-!
Verification development for the LyftProfit voice-driven ledger.

The repository is a React/TypeScript app.  We give a shallow embedding of its
interpreter core and of the stateful tracker components:

* `wordToNumber`, `jsParseFloat`    : the amount parsers
  (src/services/VoiceRecognitionService.ts, duplicated in the tracker
  components; all copies are textually identical).
* `revenueAmountMatch`, `expenseAmountMatch`, `noteMatch`, the status tests :
  hand-compilations of the JavaScript regular expressions used by
  `processCommand`.  Each regex is a literal followed by simple character
  classes; the compilation notes argue case by case that no backtracking of
  the greedy parts can change the outcome, so the deterministic scans below
  compute exactly the JS leftmost-match semantics.
* `processCommand` : the service's command dispatcher.  Spoken feedback is
  abstracted to the identity of the template string (`SpeechMsg`), since no
  claim depends on the rendering of numbers inside a sentence.
* Executors for the tracker components (`revRun`, `expRun`, `sRevRun`) :
  operational semantics for the React `useEffect` blocks.  JavaScript closure
  capture is modelled by storing, inside each scheduled timer, the values the
  callback closed over at the render that created it; React's rule that an
  effect re-runs when a value in its dependency array changed is modelled by
  the `stabilize` loops; effect cleanup functions are modelled by lists of
  timer ids cleared before the next run of the effect.
* `saveRevenue`, `saveExpense`, `getDataForDateRange`, `getTodayData` :
  the storage layer (src/utils/storage.ts), with the `localStorage` list made
  explicit.

Strings are processed as `List Char`; `String` wrappers are provided at the
API boundary.  Amounts are `ℚ` (every number the app manipulates is a decimal
literal, so rationals model JS doubles exactly on all reachable values).
NaN is modelled by `Option` (`none` = NaN), mirroring the `isNaN` checks.
-/

namespace LyftProfit

/-! ## Basic character/string utilities -/

/-- JavaScript `\s` restricted to the ASCII whitespace that can occur in a
speech transcript; agrees with `Char.isWhitespace` on ' ', '\t', '\n', '\r'. -/
def isJsWs (c : Char) : Bool := c = ' ' || c = '\t' || c = '\n' || c = '\r'

/-- JavaScript `\w` (ASCII word character). -/
def isWordChar (c : Char) : Bool := c.isAlphanum || c = '_'

/-- ASCII lower-casing, modelling `String.prototype.toLowerCase` on the ASCII
transcripts the speech layer produces. -/
def lowerL (l : List Char) : List Char := l.map Char.toLower

/-- Trim whitespace at both ends, modelling `String.prototype.trim`. -/
def trimL (l : List Char) : List Char :=
  ((l.dropWhile isJsWs).reverse.dropWhile isJsWs).reverse

/-- If `lit` is a leading literal of `l`, return the rest of `l`; models
matching a literal piece of a regex at a fixed position. -/
def afterLit : List Char → List Char → Option (List Char)
  | [], t => some t
  | _ :: _, [] => none
  | p :: ps, c :: cs => if p = c then afterLit ps cs else none

/-- Substring containment, modelling `String.prototype.includes pat`. -/
def containsL (pat : List Char) : List Char → Bool
  | [] => (afterLit pat []).isSome
  | l@(_ :: rest) => (afterLit pat l).isSome || containsL pat rest

/-- JavaScript `split(/\s+/)`: maximal whitespace runs are separators; a
leading (resp. trailing) run contributes a leading (resp. trailing) empty
component.  The `sep` flag records whether the scan is inside a separator
run (`acc` is the in-progress component otherwise). -/
def splitWsAux : List Char → List Char → Bool → List (List Char)
  | [], _, true => [[]]
  | [], acc, false => [acc.reverse]
  | c :: rest, acc, false =>
    if isJsWs c then acc.reverse :: splitWsAux rest [] true
    else splitWsAux rest (c :: acc) false
  | c :: rest, _, true =>
    if isJsWs c then splitWsAux rest [] true
    else splitWsAux rest [c] false

def splitWsL (l : List Char) : List (List Char) := splitWsAux l [] false

/-! ## The number-word parser (`wordToNumber`)

Source: `wordToNumber` in VoiceRecognitionService (src/unnamed/part_003,
lines 254-284); the copies inside RevenueTracker (src/unnamed/part_001) and
ExpenseTracker (src/src/components/ExpenseTracker.tsx) are identical. -/

/-- The `wordMap` object, in source order. -/
def wordMap : List (List Char × Nat) :=
  [("zero".data, 0), ("one".data, 1), ("two".data, 2), ("three".data, 3),
   ("four".data, 4), ("five".data, 5), ("six".data, 6), ("seven".data, 7),
   ("eight".data, 8), ("nine".data, 9), ("ten".data, 10),
   ("eleven".data, 11), ("twelve".data, 12), ("thirteen".data, 13),
   ("fourteen".data, 14), ("fifteen".data, 15), ("sixteen".data, 16),
   ("seventeen".data, 17), ("eighteen".data, 18), ("nineteen".data, 19),
   ("twenty".data, 20), ("thirty".data, 30), ("forty".data, 40),
   ("fifty".data, 50), ("sixty".data, 60), ("seventy".data, 70),
   ("eighty".data, 80), ("ninety".data, 90)]

/-- `wordMap[w]`, `none` modelling `undefined`. -/
def lookupWord (w : List Char) : Option Nat :=
  (wordMap.find? (fun kv => kv.1 = w)).map (·.2)

/-- `wordToNumber` on a character list; `none` models the `NaN` result. -/
def wordToNumberL (word : List Char) : Option Nat :=
  let cleanWord := trimL (lowerL word)
  match lookupWord cleanWord with
  | some n => some n
  | none =>
    match splitWsL cleanWord with
    | [p1, p2] =>
      match lookupWord p1, lookupWord p2 with
      | some tens, some ones =>
        if tens % 10 = 0 then some (tens + ones) else none
      | _, _ => none
    | _ => none

def wordToNumber (word : String) : Option Nat := wordToNumberL word.data

/-! ## `parseFloat`

The tokens the app feeds to `parseFloat` come from the captures
`(\d+(?:\.\d+)?)` and `(\w+)`, so they contain no whitespace, sign, or
exponent; we model the sign and fraction forms anyway (`none` = NaN expresses
that no numeric literal starts the string). -/

def digitsVal (l : List Char) : Nat :=
  l.foldl (fun acc c => 10 * acc + (c.toNat - '0'.toNat)) 0

def fracVal (l : List Char) : ℚ :=
  (digitsVal l : ℚ) / (10 : ℚ) ^ l.length

/-- The unsigned part of a numeric literal: `\d+(\.\d*)?` or `\.\d+`. -/
def jsParseUnsigned (l : List Char) : Option ℚ :=
  let (d1, r1) := l.span Char.isDigit
  if d1 = [] then
    match r1 with
    | '.' :: t =>
      let (d2, _) := t.span Char.isDigit
      if d2 = [] then none else some (fracVal d2)
    | _ => none
  else
    match r1 with
    | '.' :: t =>
      let (d2, _) := t.span Char.isDigit
      if d2 = [] then some (digitsVal d1 : ℚ)
      else some ((digitsVal d1 : ℚ) + fracVal d2)
    | _ => some (digitsVal d1 : ℚ)

/-- Leading-numeric-literal parse, modelling JS `parseFloat` on the token
shapes reachable in this app (tokens come from `(\d+(?:\.\d+)?)` and `(\w+)`
captures, so exponents, infinities and leading whitespace never occur). -/
def jsParseFloatL (l : List Char) : Option ℚ :=
  match l with
  | '-' :: t => (jsParseUnsigned t).map Neg.neg
  | '+' :: t => jsParseUnsigned t
  | _ => jsParseUnsigned l

def jsParseFloat (s : String) : Option ℚ := jsParseFloatL s.data

/-- The amount-resolution step shared by every consumer of a captured amount
token: `parseFloat` first, `wordToNumber` only if that yields `NaN`. -/
def parseAmountToken (tok : List Char) : Option ℚ :=
  match jsParseFloatL tok with
  | some q => some q
  | none => (wordToNumberL tok).map (fun n => (n : ℚ))

/-- The validity test `!isNaN(amount) && amount > 0` applied after
amount resolution. -/
def validAmount : Option ℚ → Bool
  | some a => decide (0 < a)
  | none => false

/-! ## Hand-compiled regular expressions of `processCommand`

Each pattern is a literal, then a capture made of the greedy pieces `\d+`,
`(?:\.\d+)?`, `\w+`, then an optional literal ` dollars?` and (for expenses)
the literal ` for ` and the capture `(.+)`.  JS tries the pattern at every
start index from the left; at a fixed start the greedy pieces never benefit
from giving characters back (shrinking `\d+`/`\w+` exposes a digit/word
character where the pattern next needs a space or a dot, and the three
expansions of `(?: dollars?)? for ` are pairwise prefix-incompatible), so a
deterministic scan computes the same result. -/

/-- Capture of `(\d+(?:\.\d+)?)` at the current position together with the
rest of the input; fails when no digit is present. -/
def captureNumeral (r : List Char) : Option (List Char × List Char) :=
  let (d1, r1) := r.span Char.isDigit
  if d1 = [] then none
  else
    match r1 with
    | '.' :: t =>
      let (d2, r2) := t.span Char.isDigit
      if d2 = [] then some (d1, r1) else some (d1 ++ '.' :: d2, r2)
    | _ => some (d1, r1)

/-- Capture of `(\w+)` at the current position with the rest of the input. -/
def captureWord (r : List Char) : Option (List Char × List Char) :=
  let (w, r1) := r.span isWordChar
  if w = [] then none else some (w, r1)

/-- Capture of `(.+)` at the current position: the maximal nonempty run of
non-newline characters (JS `.` does not match `\n`). -/
def captureRest (r : List Char) : Option (List Char) :=
  let cap := r.takeWhile (fun c => c ≠ '\n')
  if cap = [] then none else some cap

/-- Leftmost match of `lit(\d+(?:\.\d+)?)(?: dollars?)?`, returning the
amount capture.  The trailing optional group cannot fail, so success only
requires the literal followed by a digit. -/
def scanLitNumeral (lit : List Char) : List Char → Option (List Char)
  | [] => none
  | l@(_ :: rest) =>
    match afterLit lit l with
    | some r =>
      match captureNumeral r with
      | some (cap, _) => some cap
      | none => scanLitNumeral lit rest
    | none => scanLitNumeral lit rest

/-- Leftmost match of `lit(\w+)(?: dollars?)?`, returning the amount
capture. -/
def scanLitWord (lit : List Char) : List Char → Option (List Char)
  | [] => none
  | l@(_ :: rest) =>
    match afterLit lit l with
    | some r =>
      match captureWord r with
      | some (cap, _) => some cap
      | none => scanLitWord lit rest
    | none => scanLitWord lit rest

/-- The suffix `(?: dollars?)? for (.+)` of the expense patterns, applied to
the input remaining after the amount capture; returns the category capture.
The three expansions are tried in the greedy order ` dollars for `,
` dollar for `, ` for `; at most one of them can be a leading literal of the
same input. -/
def expenseTail (r : List Char) : Option (List Char) :=
  match afterLit " dollars for ".data r with
  | some rest => captureRest rest
  | none =>
    match afterLit " dollar for ".data r with
    | some rest => captureRest rest
    | none =>
      match afterLit " for ".data r with
      | some rest => captureRest rest
      | none => none

/-- Leftmost match of `lit(\d+(?:\.\d+)?)(?: dollars?)? for (.+)`, returning
the amount and category captures. -/
def scanExpNumeral (lit : List Char) : List Char → Option (List Char × List Char)
  | [] => none
  | l@(_ :: rest) =>
    match afterLit lit l with
    | some r =>
      match captureNumeral r with
      | some (cap, r1) =>
        match expenseTail r1 with
        | some cat => some (cap, cat)
        | none => scanExpNumeral lit rest
      | none => scanExpNumeral lit rest
    | none => scanExpNumeral lit rest

/-- Leftmost match of `lit(\w+)(?: dollars?)? for (.+)`. -/
def scanExpWord (lit : List Char) : List Char → Option (List Char × List Char)
  | [] => none
  | l@(_ :: rest) =>
    match afterLit lit l with
    | some r =>
      match captureWord r with
      | some (cap, r1) =>
        match expenseTail r1 with
        | some cat => some (cap, cat)
        | none => scanExpWord lit rest
      | none => scanExpWord lit rest
    | none => scanExpWord lit rest

/-- The `revenueMatch` alternation (four regexes joined with `||`), shared
verbatim by the service (part_003 lines 146-149) and the lenient
RevenueTracker (part_001 lines 43-46). -/
def revenueAmountMatchL (l : List Char) : Option (List Char) :=
  (scanLitNumeral "record revenue ".data l).orElse fun _ =>
  (scanLitNumeral "add revenue ".data l).orElse fun _ =>
  (scanLitWord "record revenue ".data l).orElse fun _ =>
  scanLitWord "add revenue ".data l

/-- The `expenseMatch` alternation, shared verbatim by the service
(part_003 lines 185-188) and ExpenseTracker (lines 55-58). -/
def expenseAmountMatchL (l : List Char) : Option (List Char × List Char) :=
  (scanExpNumeral "record expense ".data l).orElse fun _ =>
  (scanExpNumeral "add expense ".data l).orElse fun _ =>
  (scanExpWord "record expense ".data l).orElse fun _ =>
  scanExpWord "add expense ".data l

/-- The `noteMatch` regex `add note (.+)`, shared by the service and both
trackers. -/
def noteMatchL : List Char → Option (List Char)
  | [] => none
  | l@(_ :: rest) =>
    match afterLit "add note ".data l with
    | some r =>
      match captureRest r with
      | some cap => some cap
      | none => noteMatchL rest
    | none => noteMatchL rest

/-- The digits-only `revenueMatch` of the strict RevenueTracker
(src/src/components/RevenueTracker.tsx lines 41-42): only the two numeral
regexes, no word-amount support. -/
def strictRevenueMatchL (l : List Char) : Option (List Char) :=
  (scanLitNumeral "record revenue ".data l).orElse fun _ =>
  scanLitNumeral "add revenue ".data l

/-! ## Status-query keyword tests (part_003 lines 229-246)

Each test is a string containment or a regex that is a plain alternation of
literals; the optional `(ed)?` cannot affect whether a match exists. -/

def statusRevenueTestL (l : List Char) : Bool :=
  containsL "total revenue".data l ||
  containsL "how much have i earn".data l ||
  containsL "how much did i earn".data l

def statusExpensesTestL (l : List Char) : Bool :=
  containsL "total expenses".data l ||
  containsL "how much have i spend".data l ||
  containsL "how much did i spend".data l

def statusProfitTestL (l : List Char) : Bool :=
  containsL "profit".data l ||
  containsL "how much have i make".data l ||
  containsL "how much did i make".data l

/-! ## Expense categories and the category classifier -/

/-- `ExpenseCategory` from src/models/types.ts. -/
inductive ExpenseCategory
  | GAS | MAINTENANCE | CAR_WASH | SNACKS | TOLLS | OTHER
deriving DecidableEq, Repr

/-- The category classification if-chain of the expense branch (part_003
lines 202-218, identical in ExpenseTracker lines 72-88); the input is
lower-cased first (`categoryText = expenseMatch[2].toLowerCase()`). -/
def classifyCategoryL (l : List Char) : ExpenseCategory :=
  let t := lowerL l
  if containsL "gas".data t then .GAS
  else if containsL "maintenance".data t then .MAINTENANCE
  else if containsL "car wash".data t then .CAR_WASH
  else if containsL "snack".data t then .SNACKS
  else if containsL "toll".data t then .TOLLS
  else .OTHER

def classifyCategory (s : String) : ExpenseCategory := classifyCategoryL s.data

/-! ## The command dispatcher `processCommand` (part_003 lines 129-251) -/

/-- Which spoken feedback template the service utters; the interpolation of
numbers into the sentence is abstracted away. -/
inductive SpeechMsg
  | promptRevenueAmount
  | promptExpenseAmount
  | recordedRevenue (amount : ℚ)
  | recordedExpense (amount : ℚ) (category : ExpenseCategory)
  | couldNotUnderstandAmount
  | unrecognized
deriving DecidableEq, Repr

inductive StatusKind
  | revenue | expenses | profit
deriving DecidableEq, Repr

/-- A call made to the `VoiceCommandHandler` collaborator. -/
inductive Dispatch
  | revenueCmd (amount : ℚ)
  | expenseCmd (amount : ℚ) (category : ExpenseCategory)
  | statusCmd (k : StatusKind)
deriving DecidableEq, Repr

structure ProcessResult where
  dispatch : Option Dispatch
  spoken : Option SpeechMsg
deriving DecidableEq, Repr

def processCommandL (cmd : List Char) : ProcessResult :=
  if cmd = "record revenue".data ∨ cmd = "add revenue".data then
    ⟨none, some .promptRevenueAmount⟩
  else if cmd = "record expense".data ∨ cmd = "add expense".data then
    ⟨none, some .promptExpenseAmount⟩
  else
    match revenueAmountMatchL cmd with
    | some tok =>
      match parseAmountToken tok with
      | some a =>
        if 0 < a then ⟨some (.revenueCmd a), some (.recordedRevenue a)⟩
        else ⟨none, some .couldNotUnderstandAmount⟩
      | none => ⟨none, some .couldNotUnderstandAmount⟩
    | none =>
      match noteMatchL cmd with
      | some _ => ⟨none, none⟩
      | none =>
        match expenseAmountMatchL cmd with
        | some (tok, catText) =>
          match parseAmountToken tok with
          | some a =>
            if 0 < a then
              let c := classifyCategoryL catText
              ⟨some (.expenseCmd a c), some (.recordedExpense a c)⟩
            else ⟨none, some .couldNotUnderstandAmount⟩
          | none => ⟨none, some .couldNotUnderstandAmount⟩
        | none =>
          if statusRevenueTestL cmd then ⟨some (.statusCmd .revenue), none⟩
          else if statusExpensesTestL cmd then ⟨some (.statusCmd .expenses), none⟩
          else if statusProfitTestL cmd then ⟨some (.statusCmd .profit), none⟩
          else ⟨none, some .unrecognized⟩

def processCommand (s : String) : ProcessResult := processCommandL s.data

/-! ## Ledger entries and the storage layer (src/utils/storage.ts)

`localStorage` holds a JSON list per key; we make that list explicit.  The
entry `id` is `Date.now().toString()`; we keep the numeric timestamp (the
decimal rendering is injective, so nothing is lost).  The field
`note: noteValue || undefined` maps the empty string to `undefined`. -/

structure RevenueEntry where
  id : Nat
  amount : ℚ
  timestamp : Nat
  note : Option (List Char)
deriving DecidableEq, Repr

structure ExpenseEntry where
  id : Nat
  amount : ℚ
  category : ExpenseCategory
  timestamp : Nat
  note : Option (List Char)
deriving DecidableEq, Repr

/-- `saveRevenue`: `setItem(KEY, JSON.stringify([...existingRevenue, revenue]))`. -/
def saveRevenue (existingRevenue : List RevenueEntry) (revenue : RevenueEntry) :
    List RevenueEntry :=
  existingRevenue ++ [revenue]

/-- `saveExpense`: `setItem(KEY, JSON.stringify([...existingExpenses, expense]))`. -/
def saveExpense (existingExpenses : List ExpenseEntry) (expense : ExpenseEntry) :
    List ExpenseEntry :=
  existingExpenses ++ [expense]

/-- `getDataForDateRange` (storage.ts lines 37-56): both bounds inclusive. -/
def getDataForDateRange (startTimestamp endTimestamp : Nat)
    (allRevenue : List RevenueEntry) (allExpenses : List ExpenseEntry) :
    List RevenueEntry × List ExpenseEntry :=
  (allRevenue.filter fun rev =>
      decide (startTimestamp ≤ rev.timestamp) && decide (rev.timestamp ≤ endTimestamp),
   allExpenses.filter fun exp =>
      decide (startTimestamp ≤ exp.timestamp) && decide (exp.timestamp ≤ endTimestamp))

/-- `getTodayData` (storage.ts lines 59-67).  The two midnight timestamps
(`today.setHours(0,0,0,0)` and `tomorrow.setDate(getDate()+1)`) are produced
by the Date library; they enter the model as parameters. -/
def getTodayData (todayMidnight tomorrowMidnight : Nat)
    (allRevenue : List RevenueEntry) (allExpenses : List ExpenseEntry) :
    List RevenueEntry × List ExpenseEntry :=
  getDataForDateRange todayMidnight tomorrowMidnight allRevenue allExpenses

/-- Dashboard `onStatusCommand` aggregate (Dashboard.tsx lines 38-50): the
spoken totals are pure reads of today's data. -/
def totalAmountRevenue (rev : List RevenueEntry) : ℚ :=
  rev.foldl (fun sum r => sum + r.amount) 0

def totalAmountExpenses (exps : List ExpenseEntry) : ℚ :=
  exps.foldl (fun sum e => sum + e.amount) 0

/-- The sentence template spoken by `onStatusCommand`. -/
inductive StatusSpeech
  | revenueToday (total : ℚ)
  | expensesToday (total : ℚ)
  | profitSoFar (profit : ℚ)
deriving DecidableEq, Repr

def onStatusCommand (k : StatusKind)
    (todayRevenue : List RevenueEntry) (todayExpenses : List ExpenseEntry) :
    StatusSpeech :=
  match k with
  | .revenue => .revenueToday (totalAmountRevenue todayRevenue)
  | .expenses => .expensesToday (totalAmountExpenses todayExpenses)
  | .profit =>
      .profitSoFar (totalAmountRevenue todayRevenue - totalAmountExpenses todayExpenses)

/-! ## Lenient RevenueTracker executor (src/unnamed/part_001)

The voice effect (lines 37-89) has dependency array `[lastCommand,
pendingAmount]`; React re-runs it whenever either value changed since its
previous run.  The `setTimeout` callback (lines 67-72) closes over the
render's `pendingAmount` and the local `amountValue`; we store those captured
values in the timer.  The component returns no cleanup, so timers are never
cancelled.  The display-only `recentRevenue` list is omitted; the `amount`
form field holds `v.toString()` or `''`, modelled as `Option ℚ`. -/

structure RevTimer where
  fireAt : Nat
  captPending : Option ℚ
  amountValue : ℚ
deriving DecidableEq, Repr

structure RevComp where
  amount : Option ℚ
  note : List Char
  pendingAmount : Option ℚ
deriving DecidableEq, Repr

structure RevSys where
  comp : RevComp
  lastCommand : List Char
  store : List RevenueEntry
  timers : List RevTimer
  now : Nat
deriving DecidableEq, Repr

def revInit : RevSys :=
  ⟨⟨none, [], none⟩, [], [], [], 0⟩

/-- `handleSaveRevenue` (part_001 lines 124-148): append the entry, reset the
`amount` and `note` fields.  Callers clear `pendingAmount` themselves. -/
def revSave (sys : RevSys) (amountValue : ℚ) (noteValue : List Char) : RevSys :=
  let entry : RevenueEntry :=
    ⟨sys.now, amountValue, sys.now, if noteValue = [] then none else some noteValue⟩
  { sys with store := saveRevenue sys.store entry,
             comp := { sys.comp with amount := none, note := [] } }

/-- One run of the voice effect body.  `s0` is the render snapshot: every
read of a state variable inside the body sees the values from the render
that triggered the run, not the values queued by this run's own set calls. -/
def revEffectBody (sys : RevSys) : RevSys :=
  if sys.lastCommand = [] then sys
  else
    let s0 := sys.comp
    let sys1 :=
      match revenueAmountMatchL sys.lastCommand with
      | some tok =>
        match parseAmountToken tok with
        | some a =>
          if 0 < a then
            { sys with
                comp := { sys.comp with amount := some a, pendingAmount := some a },
                timers := sys.timers ++ [⟨sys.now + 3, s0.pendingAmount, a⟩] }
          else sys
        | none => sys
      | none => sys
    match s0.pendingAmount with
    | some p =>
      match noteMatchL sys.lastCommand with
      | some txt =>
        let sys2 := { sys1 with comp := { sys1.comp with note := txt } }
        let sys3 := revSave sys2 p txt
        { sys3 with comp := { sys3.comp with pendingAmount := none } }
      | none => sys1
    | none => sys1

/-- The dependency tuple `[lastCommand, pendingAmount]` compared by React
between effect runs. -/
def revDeps (sys : RevSys) : List Char × Option ℚ :=
  (sys.lastCommand, sys.comp.pendingAmount)

/-- Run the effect while the current dependency values differ from the ones
seen at the last completed run (`prev`), as React does.  Fuel bounds the
loop; on every trace in this file two runs suffice. -/
def revStabilize : Nat → (List Char × Option ℚ) → RevSys → RevSys
  | 0, _, sys => sys
  | fuel + 1, prev, sys =>
    if revDeps sys = prev then sys
    else revStabilize fuel (revDeps sys) (revEffectBody sys)

/-- The timeout callback (part_001 lines 67-72) with its captured values. -/
def revFireTimer (sys : RevSys) (t : RevTimer) : RevSys :=
  if t.captPending = some t.amountValue then
    let sys1 := revSave sys t.amountValue []
    { sys1 with comp := { sys1.comp with pendingAmount := none } }
  else sys

/-- Remove and return the first due timer. -/
def extractDueRev (now : Nat) : List RevTimer → Option (RevTimer × List RevTimer)
  | [] => none
  | t :: rest =>
    if t.fireAt ≤ now then some (t, rest)
    else match extractDueRev now rest with
      | some (d, rest') => some (d, t :: rest')
      | none => none

/-- Fire every timer due at the current time, re-stabilizing the effect after
each callback (a callback that changes `pendingAmount` re-triggers the
effect). -/
def revFireDue : Nat → RevSys → RevSys
  | 0, sys => sys
  | fuel + 1, sys =>
    match extractDueRev sys.now sys.timers with
    | none => sys
    | some (t, rest) =>
      let sysPre := { sys with timers := rest }
      revFireDue fuel (revStabilize 8 (revDeps sysPre) (revFireTimer sysPre t))

inductive RevEvent
  | say (t : Nat) (cmd : List Char)
  | tick (t : Nat)

/-- Process one external event.  A `say` models the recognizer delivering a
transcript: Dashboard's `setLastCommand` re-renders only when the string
actually changed, and then the effect runs.  A `tick` advances time and lets
due timeouts fire; an effect re-run follows only when a callback changed a
dependency. -/
def revStep (sys : RevSys) : RevEvent → RevSys
  | .say t c =>
    if c = sys.lastCommand then { sys with now := t }
    else revStabilize 8 (revDeps sys) { sys with now := t, lastCommand := c }
  | .tick t => revFireDue 8 { sys with now := t }

def revRun (sys : RevSys) (events : List RevEvent) : RevSys :=
  events.foldl revStep sys

/-- `handleSubmit` (part_001 lines 150-162): the typed form value (modelled
as the `parseFloat` of the field, `none` = NaN) is saved only when positive. -/
def revHandleSubmit (sys : RevSys) (typedAmount : Option ℚ) : RevSys :=
  match typedAmount with
  | some a => if 0 < a then revSave sys a sys.comp.note else sys
  | none => sys

/-! ## ExpenseTracker executor (src/src/components/ExpenseTracker.tsx)

The voice effect (lines 40-126) has dependency array `[lastCommand,
pendingExpense, lastProcessedCommand, processingLock]`.  It can return a
cleanup function; React runs the stored cleanup (which clears the named
timeouts) immediately before re-running the effect.  Timers carry ids so
cleanup can remove them; the save timeout stores the render's
`pendingExpense` and the local `amountValue`/`expenseCategory` it closed
over.  The display-only `recentExpenses` list is omitted. -/

inductive ExpTimerKind
  | lockRelease
  | save (captPending : Option (ℚ × ExpenseCategory)) (amountValue : ℚ)
      (category : ExpenseCategory)
deriving DecidableEq, Repr

structure ExpTimer where
  id : Nat
  fireAt : Nat
  kind : ExpTimerKind
deriving DecidableEq, Repr

structure ExpComp where
  amount : Option ℚ
  category : ExpenseCategory
  note : List Char
  pendingExpense : Option (ℚ × ExpenseCategory)
  lastProcessed : List Char
  lock : Bool
deriving DecidableEq, Repr

structure ExpSys where
  comp : ExpComp
  lastCommand : List Char
  store : List ExpenseEntry
  timers : List ExpTimer
  cleanup : List Nat
  nextId : Nat
  now : Nat
deriving DecidableEq, Repr

def expInit : ExpSys :=
  ⟨⟨none, .GAS, [], none, [], false⟩, [], [], [], [], 0, 0⟩

/-- `handleSaveExpense` (lines 161-187): append the entry, reset the form
fields (`category` back to GAS). -/
def expSave (sys : ExpSys) (amountValue : ℚ) (categoryValue : ExpenseCategory)
    (noteValue : List Char) : ExpSys :=
  let entry : ExpenseEntry :=
    ⟨sys.now, amountValue, categoryValue, sys.now,
     if noteValue = [] then none else some noteValue⟩
  { sys with store := saveExpense sys.store entry,
             comp := { sys.comp with amount := none, category := .GAS, note := [] } }

/-- The note branch (lines 110-122), reading the render snapshot `s0`. -/
def expNoteBranch (sys : ExpSys) (s0 : ExpComp) : ExpSys :=
  match s0.pendingExpense with
  | some (p, pc) =>
    match noteMatchL sys.lastCommand with
    | some txt =>
      let sys2 := { sys with comp := { sys.comp with note := txt } }
      let sys3 := expSave sys2 p pc txt
      { sys3 with comp := { sys3.comp with pendingExpense := none } }
    | none => sys
  | none => sys

/-- One run of the effect body (cleanup of the previous run has already been
executed by `expInvoke`).  Mirrors lines 40-126: the guard, the lock and
`lastProcessedCommand` writes, the `lockTimeout`, the expense branch with its
`saveTimeout` and early return, the note branch, and the cleanup value each
path returns. -/
def expEffectBody (sys : ExpSys) : ExpSys :=
  if sys.lastCommand = [] ∨ sys.lastCommand = sys.comp.lastProcessed ∨
      sys.comp.lock then sys
  else
    let s0 := sys.comp
    let lockId := sys.nextId
    let sysA :=
      { sys with
          comp := { sys.comp with lock := true, lastProcessed := sys.lastCommand },
          timers := sys.timers ++ [⟨lockId, sys.now + 3, .lockRelease⟩],
          nextId := sys.nextId + 1 }
    let fallThrough : ExpSys → ExpSys := fun s =>
      { expNoteBranch s s0 with cleanup := [lockId] }
    match expenseAmountMatchL sysA.lastCommand with
    | some (tok, catText) =>
      match parseAmountToken tok with
      | some a =>
        if 0 < a then
          let c := classifyCategoryL catText
          let saveId := sysA.nextId
          { sysA with
              comp := { sysA.comp with
                          amount := some a, category := c,
                          pendingExpense := some (a, c) },
              timers := sysA.timers ++ [⟨saveId, sysA.now + 3, .save s0.pendingExpense a c⟩],
              nextId := sysA.nextId + 1,
              cleanup := [saveId, lockId] }
        else fallThrough sysA
      | none => fallThrough sysA
    | none => fallThrough sysA

/-- Invoke the effect: run the stored cleanup (clear the named timeouts),
then the body. -/
def expInvoke (sys : ExpSys) : ExpSys :=
  expEffectBody
    { sys with timers := sys.timers.filter (fun t => ¬ t.id ∈ sys.cleanup),
               cleanup := [] }

/-- The dependency tuple compared by React between runs. -/
def expDeps (sys : ExpSys) : List Char × Option (ℚ × ExpenseCategory) × List Char × Bool :=
  (sys.lastCommand, sys.comp.pendingExpense, sys.comp.lastProcessed, sys.comp.lock)

def expStabilize : Nat → (List Char × Option (ℚ × ExpenseCategory) × List Char × Bool) →
    ExpSys → ExpSys
  | 0, _, sys => sys
  | fuel + 1, prev, sys =>
    if expDeps sys = prev then sys
    else expStabilize fuel (expDeps sys) (expInvoke sys)

/-- A due timeout callback with its captured values (lines 50-52 and
95-100). -/
def expFireTimer (sys : ExpSys) (t : ExpTimer) : ExpSys :=
  match t.kind with
  | .lockRelease => { sys with comp := { sys.comp with lock := false } }
  | .save captPending amountValue category =>
    match captPending with
    | some (p, _) =>
      if p = amountValue then
        let sys1 := expSave sys amountValue category []
        { sys1 with comp := { sys1.comp with pendingExpense := none } }
      else sys
    | none => sys

def extractDueExp (now : Nat) : List ExpTimer → Option (ExpTimer × List ExpTimer)
  | [] => none
  | t :: rest =>
    if t.fireAt ≤ now then some (t, rest)
    else match extractDueExp now rest with
      | some (d, rest') => some (d, t :: rest')
      | none => none

def expFireDue : Nat → ExpSys → ExpSys
  | 0, sys => sys
  | fuel + 1, sys =>
    match extractDueExp sys.now sys.timers with
    | none => sys
    | some (t, rest) =>
      let sysPre := { sys with timers := rest }
      expFireDue fuel (expStabilize 8 (expDeps sysPre) (expFireTimer sysPre t))

inductive ExpEvent
  | say (t : Nat) (cmd : List Char)
  | tick (t : Nat)

def expStep (sys : ExpSys) : ExpEvent → ExpSys
  | .say t c =>
    if c = sys.lastCommand then { sys with now := t }
    else expStabilize 8 (expDeps sys) { sys with now := t, lastCommand := c }
  | .tick t => expFireDue 8 { sys with now := t }

def expRun (sys : ExpSys) (events : List ExpEvent) : ExpSys :=
  events.foldl expStep sys

/-- `handleSubmit` (lines 189-201). -/
def expHandleSubmit (sys : ExpSys) (typedAmount : Option ℚ) : ExpSys :=
  match typedAmount with
  | some a => if 0 < a then expSave sys a sys.comp.category sys.comp.note else sys
  | none => sys

/-! ## Strict RevenueTracker executor (src/src/components/RevenueTracker.tsx)

The stricter variant: digits-only revenue regexes, no timers, and its voice
branch (lines 44-49) guards only with `!isNaN(amount)` — there is no
`amount > 0` check before `setPendingAmount`. -/

structure SRevSys where
  comp : RevComp
  lastCommand : List Char
  store : List RevenueEntry
  now : Nat
deriving DecidableEq, Repr

def sRevInit : SRevSys := ⟨⟨none, [], none⟩, [], [], 0⟩

def sRevSave (sys : SRevSys) (amountValue : ℚ) (noteValue : List Char) : SRevSys :=
  let entry : RevenueEntry :=
    ⟨sys.now, amountValue, sys.now, if noteValue = [] then none else some noteValue⟩
  { sys with store := saveRevenue sys.store entry,
             comp := { sys.comp with amount := none, note := [] } }

def sRevEffectBody (sys : SRevSys) : SRevSys :=
  if sys.lastCommand = [] then sys
  else
    let s0 := sys.comp
    let sys1 :=
      match strictRevenueMatchL sys.lastCommand with
      | some tok =>
        match jsParseFloatL tok with
        | some a =>
          { sys with comp := { sys.comp with amount := some a, pendingAmount := some a } }
        | none => sys
      | none => sys
    match s0.pendingAmount with
    | some p =>
      match noteMatchL sys.lastCommand with
      | some txt =>
        let sys2 := { sys1 with comp := { sys1.comp with note := txt } }
        let sys3 := sRevSave sys2 p txt
        { sys3 with comp := { sys3.comp with pendingAmount := none } }
      | none => sys1
    | none => sys1

def sRevDeps (sys : SRevSys) : List Char × Option ℚ :=
  (sys.lastCommand, sys.comp.pendingAmount)

def sRevStabilize : Nat → (List Char × Option ℚ) → SRevSys → SRevSys
  | 0, _, sys => sys
  | fuel + 1, prev, sys =>
    if sRevDeps sys = prev then sys
    else sRevStabilize fuel (sRevDeps sys) (sRevEffectBody sys)

inductive SRevEvent
  | say (t : Nat) (cmd : List Char)

def sRevStep (sys : SRevSys) : SRevEvent → SRevSys
  | .say t c =>
    if c = sys.lastCommand then { sys with now := t }
    else sRevStabilize 8 (sRevDeps sys) { sys with now := t, lastCommand := c }

def sRevRun (sys : SRevSys) (events : List SRevEvent) : SRevSys :=
  events.foldl sRevStep sys

/-! ## Spec-side definitions

These two definitions are transcribed from the specification text (not from
the code) so that code behaviour can be compared against the spec's words. -/

/-- The tens vocabulary named by the spec for the first word of a two-word
number: "a multiple of ten (twenty/thirty/.../ninety)". -/
def specC3TensWords : List String :=
  ["twenty", "thirty", "forty", "fifty", "sixty", "seventy", "eighty", "ninety"]

/-- The classifier described by the spec: "test substring containment in
fixed priority order: gas, maintenance, car wash, snack, toll.  First match
wins.  No match → Other." -/
def specCategoryKeywords : List (String × ExpenseCategory) :=
  [("gas", .GAS), ("maintenance", .MAINTENANCE), ("car wash", .CAR_WASH),
   ("snack", .SNACKS), ("toll", .TOLLS)]

def specClassify (text : String) : ExpenseCategory :=
  match specCategoryKeywords.find? (fun kv => containsL kv.1.data (lowerL text.data)) with
  | some kv => kv.2
  | none => .OTHER

/-- The status test the dispatcher uses for kind `k`. -/
def statusTestOfL : StatusKind → List Char → Bool
  | .revenue, l => statusRevenueTestL l
  | .expenses, l => statusExpensesTestL l
  | .profit, l => statusProfitTestL l

/-- The status tests of strictly higher priority than `k` all fail on `l`
(the dispatcher tries revenue, then expenses, then profit). -/
def statusPriorityOkL : StatusKind → List Char → Bool
  | .revenue, _ => true
  | .expenses, l => !statusRevenueTestL l
  | .profit, l => !statusRevenueTestL l && !statusExpensesTestL l

/-- Every revenue-grammar match on `c` resolves to an invalid (NaN or
non-positive) amount, so the revenue branch cannot capture a pending amount. -/
def revenueBranchInert (c : List Char) : Prop :=
  ∀ tok, revenueAmountMatchL c = some tok →
    validAmount (parseAmountToken tok) = false

/-- Every expense-grammar match on `c` resolves to an invalid amount. -/
def expenseBranchInert (c : List Char) : Prop :=
  ∀ tok catText, expenseAmountMatchL c = some (tok, catText) →
    validAmount (parseAmountToken tok) = false

/-! # Theorems for the claims -/

/-- C1: the claim says that after "record revenue 10" with no note the timer
commits exactly one entry, and that no input sequence commits the same
pending entry twice.  Evaluating the RevenueTracker executor shows the code
violates both parts: with no further input, the timer commit clears
`pendingAmount`, which is in the effect's dependency array, so the effect
reprocesses the unchanged `lastCommand` and schedules another commit — two
entries exist already by time 6 (and another appears every 3 units); and
when a note arrives at time 1, the already-scheduled timeout (whose closure
captured `pendingAmount = 10`) still fires at time 3, committing a second,
note-less copy after the note commit. -/
theorem c1_code_eval :
    ((revRun revInit [.say 0 "record revenue 10".data, .tick 3, .tick 6]).store.map
        fun e => (e.amount, e.note)) = [((10 : ℚ), none), ((10 : ℚ), none)] ∧
    ((revRun revInit [.say 0 "record revenue 10".data, .say 1 "add note gas".data,
        .tick 4]).store.map fun e => (e.amount, e.note)) =
      [((10 : ℚ), some "gas".data), ((10 : ℚ), none)] := by
  exact ⟨by decide, by decide⟩

/-- C2: the claim says a second amount command supersedes the first pending
expense and exactly one entry (the second's) is committed from the pair.
Evaluating the ExpenseTracker executor shows the code commits nothing at
all: the first command's effect run sets `processingLock` and schedules both
timeouts, the state changes re-trigger the effect, and the cleanup of the
first run clears the save timeout and the lock-release timeout, so the lock
never releases; the second amount command and the note are rejected by the
`processingLock` guard, `pendingExpense` stays at the first entry, and the
store stays empty through time 10. -/
theorem c2_code_eval :
    (expRun expInit [.say 0 "record expense 10 for gas".data,
        .say 1 "record expense 5 for snacks".data,
        .say 2 "add note road snacks".data,
        .tick 4, .tick 7, .tick 10]).store = [] ∧
    (expRun expInit [.say 0 "record expense 10 for gas".data,
        .say 1 "record expense 5 for snacks".data,
        .say 2 "add note road snacks".data,
        .tick 4, .tick 7, .tick 10]).comp.lock = true ∧
    (expRun expInit [.say 0 "record expense 10 for gas".data,
        .say 1 "record expense 5 for snacks".data,
        .say 2 "add note road snacks".data,
        .tick 4, .tick 7, .tick 10]).comp.pendingExpense = some (10, .GAS) ∧
    (expRun expInit [.say 0 "record expense 10 for gas".data]).timers = [] := by
  exact ⟨by decide, by decide, by decide, by decide⟩

/-- C7: the claim says every committed entry has a positive amount.  The
strict RevenueTracker's voice branch checks only `!isNaN(amount)` before
setting `pendingAmount`, so "record revenue 0" followed by "add note x"
commits an entry with amount 0. -/
theorem c7_code_eval :
    ((sRevRun sRevInit [.say 0 "record revenue 0".data,
        .say 1 "add note x".data]).store.map fun e => (e.amount, e.note)) =
      [((0 : ℚ), some "x".data)] := by
  decide

/-- C3 counterexample: the claim says a two-word token succeeds only when
the first word is one of twenty..ninety and the second names 0-9.  The
code's guard is `tens % 10 === 0` over the whole vocabulary, so
"ten five" (first word not in twenty..ninety) parses to 15 and
"twenty ten" (second word naming 10) parses to 30 instead of failing. -/
theorem c3_counterexample :
    "ten" ∉ specC3TensWords ∧
    wordToNumber "ten five" = some 15 ∧
    wordToNumber "twenty ten" = some 30 := by
  exact ⟨by decide, by decide, by decide⟩

/-- C4 counterexample: the claim says any transcript containing "profit" is
classified as the profit query.  The revenue-status test runs first, so
"total revenue profit" contains "profit" yet dispatches the revenue query. -/
theorem c4_counterexample :
    containsL "profit".data "total revenue profit".data = true ∧
    processCommand "total revenue profit" =
      ⟨some (.statusCmd .revenue), none⟩ := by
  exact ⟨by decide, by decide⟩

/-- C5 counterexample: the claim says every transcript matching the expense
grammar with an unparseable amount gets the distinct could-not-understand
message.  The note regex is tried before the expense regex, so
"record expense blah for add note x" matches the expense grammar with amount
token "blah" (which resolves to NaN) yet produces no spoken message at all:
the dispatcher returns silently from the note branch. -/
theorem c5_counterexample :
    expenseAmountMatchL "record expense blah for add note x".data =
      some ("blah".data, "add note x".data) ∧
    parseAmountToken "blah".data = none ∧
    processCommand "record expense blah for add note x" = ⟨none, none⟩ := by
  exact ⟨by decide, by decide, by decide⟩

/-! ### Helper lemmas for C3 -/

theorem splitWsAux_no_ws (l : List Char) (acc : List Char)
    (h : ∀ c ∈ l, isJsWs c = false) :
    splitWsAux l acc false = [acc.reverse ++ l] := by
  induction l generalizing acc with
  | nil => simp [splitWsAux]
  | cons c rest ih =>
    have hc : isJsWs c = false := h c (List.mem_cons_self c rest)
    have hrest : ∀ x ∈ rest, isJsWs x = false :=
      fun x hx => h x (List.mem_cons_of_mem c hx)
    simp [splitWsAux, hc, ih _ hrest]

theorem splitWs_pair_has_ws {l p1 p2 : List Char}
    (h : splitWsL l = [p1, p2]) : ∃ c ∈ l, isJsWs c = true := by
  by_contra hno
  push_neg at hno
  have hall : ∀ c ∈ l, isJsWs c = false := by
    intro c hc
    cases hb : isJsWs c with
    | false => rfl
    | true => exact absurd hb (hno c hc)
  rw [splitWsL, splitWsAux_no_ws l [] hall] at h
  simp at h

theorem lookupWord_ws_none {w : List Char} (h : ∃ c ∈ w, isJsWs c = true) :
    lookupWord w = none := by
  obtain ⟨c, hcw, hws⟩ := h
  have hkeys : ∀ kv ∈ wordMap, ∀ x ∈ kv.1, isJsWs x = false := by decide
  have hfind : wordMap.find? (fun kv => kv.1 = w) = none := by
    rw [List.find?_eq_none]
    intro kv hkv hdec
    have heq : kv.1 = w := of_decide_eq_true hdec
    have hfalse := hkeys kv hkv c (by rw [heq]; exact hcw)
    rw [hws] at hfalse
    cases hfalse
  unfold lookupWord
  rw [hfind]
  rfl

/-- C3 (amended): on every token whose cleaned form splits into exactly two
whitespace-separated words, `wordToNumber` returns `tens + ones` exactly when
both words are vocabulary words and the first word's value is divisible by
ten — the first word may be any of zero/ten/twenty/../ninety and the second
any vocabulary word — and fails (NaN) otherwise. -/
theorem c3_amended (token : String) (p1 p2 : List Char)
    (h : splitWsL (trimL (lowerL token.data)) = [p1, p2]) :
    wordToNumber token =
      (match lookupWord p1, lookupWord p2 with
       | some tens, some ones =>
         if tens % 10 = 0 then some (tens + ones) else none
       | _, _ => none) := by
  have hws := splitWs_pair_has_ws h
  have hnone := lookupWord_ws_none hws
  simp only [wordToNumber, wordToNumberL]
  rw [hnone, h]

/-- Witness for C3 (amended): "twenty five" cleans and splits into the two
words "twenty" and "five", and the amended formula evaluates to 25 there. -/
theorem c3_amended_witness :
    splitWsL (trimL (lowerL "twenty five".data)) = ["twenty".data, "five".data] ∧
    wordToNumber "twenty five" =
      (match lookupWord "twenty".data, lookupWord "five".data with
       | some tens, some ones =>
         if tens % 10 = 0 then some (tens + ones) else none
       | _, _ => none) :=
  ⟨by decide, c3_amended "twenty five" "twenty".data "five".data (by decide)⟩

/-- C8: the category classifier lower-cases its input and returns the first
category of the fixed order gas, maintenance, car wash, snack, toll whose
keyword occurs as a substring (Other if none does): the code's if-chain
coincides with the spec's first-match search on every input, a text
containing both "gas" and "toll" classifies as Gas, and "random stuff"
classifies as Other. -/
theorem c8_classifier :
    (∀ text : String, classifyCategory text = specClassify text) ∧
    classifyCategory "I filled up on gas today" = .GAS ∧
    classifyCategory "random stuff" = .OTHER ∧
    classifyCategory "gas near the toll booth" = .GAS := by
  refine ⟨fun text => ?_, by decide, by decide, by decide⟩
  unfold classifyCategory classifyCategoryL specClassify specCategoryKeywords
  cases h1 : containsL "gas".data (lowerL text.data) <;>
    cases h2 : containsL "maintenance".data (lowerL text.data) <;>
      cases h3 : containsL "car wash".data (lowerL text.data) <;>
        cases h4 : containsL "snack".data (lowerL text.data) <;>
          cases h5 : containsL "toll".data (lowerL text.data) <;>
            simp [List.find?, h1, h2, h3, h4, h5]

/-! ### Store-extension lemmas for C9: every operation of both tracker
executors only appends to the persisted store. -/

theorem exists_append_trans {α : Type} {a b c : List α}
    (h1 : ∃ d, b = a ++ d) (h2 : ∃ d, c = b ++ d) : ∃ d, c = a ++ d := by
  obtain ⟨d1, h1⟩ := h1
  obtain ⟨d2, h2⟩ := h2
  exact ⟨d1 ++ d2, by rw [h2, h1, List.append_assoc]⟩

theorem revEffectBody_ext (sys : RevSys) :
    ∃ d, (revEffectBody sys).store = sys.store ++ d := by
  unfold revEffectBody
  by_cases hl : sys.lastCommand = []
  · rw [if_pos hl]
    exact ⟨[], by simp⟩
  · rw [if_neg hl]
    cases hm : revenueAmountMatchL sys.lastCommand with
    | none =>
      cases hp : sys.comp.pendingAmount with
      | none => exact ⟨[], by simp [hp]⟩
      | some p =>
        cases hn : noteMatchL sys.lastCommand with
        | none => exact ⟨[], by simp [hp, hn]⟩
        | some txt =>
          exact ⟨[⟨sys.now, p, sys.now, if txt = [] then none else some txt⟩],
            by simp [hp, hn, revSave, saveRevenue]⟩
    | some tok =>
      cases hq : parseAmountToken tok with
      | none =>
        cases hp : sys.comp.pendingAmount with
        | none => exact ⟨[], by simp [hq, hp]⟩
        | some p =>
          cases hn : noteMatchL sys.lastCommand with
          | none => exact ⟨[], by simp [hq, hp, hn]⟩
          | some txt =>
            exact ⟨[⟨sys.now, p, sys.now, if txt = [] then none else some txt⟩],
              by simp [hq, hp, hn, revSave, saveRevenue]⟩
      | some a =>
        simp only [hq]
        by_cases ha : 0 < a
        · rw [if_pos ha]
          cases hp : sys.comp.pendingAmount with
          | none => exact ⟨[], by simp [hp]⟩
          | some p =>
            cases hn : noteMatchL sys.lastCommand with
            | none => exact ⟨[], by simp [hp, hn]⟩
            | some txt =>
              exact ⟨[⟨sys.now, p, sys.now, if txt = [] then none else some txt⟩],
                by simp [hp, hn, revSave, saveRevenue]⟩
        · rw [if_neg ha]
          cases hp : sys.comp.pendingAmount with
          | none => exact ⟨[], by simp [hp]⟩
          | some p =>
            cases hn : noteMatchL sys.lastCommand with
            | none => exact ⟨[], by simp [hp, hn]⟩
            | some txt =>
              exact ⟨[⟨sys.now, p, sys.now, if txt = [] then none else some txt⟩],
                by simp [hp, hn, revSave, saveRevenue]⟩

theorem revStabilize_ext (fuel : Nat) :
    ∀ prev sys, ∃ d, (revStabilize fuel prev sys).store = sys.store ++ d := by
  induction fuel with
  | zero => intro prev sys; exact ⟨[], by simp [revStabilize]⟩
  | succ fuel ih =>
    intro prev sys
    unfold revStabilize
    by_cases h : revDeps sys = prev
    · rw [if_pos h]; exact ⟨[], by simp⟩
    · rw [if_neg h]
      exact exists_append_trans (revEffectBody_ext sys) (ih _ _)

theorem revFireTimer_ext (sys : RevSys) (t : RevTimer) :
    ∃ d, (revFireTimer sys t).store = sys.store ++ d := by
  unfold revFireTimer
  by_cases h : t.captPending = some t.amountValue
  · rw [if_pos h]
    exact ⟨[⟨sys.now, t.amountValue, sys.now, none⟩], by simp [revSave, saveRevenue]⟩
  · rw [if_neg h]; exact ⟨[], by simp⟩

theorem revFireDue_ext (fuel : Nat) :
    ∀ sys, ∃ d, (revFireDue fuel sys).store = sys.store ++ d := by
  induction fuel with
  | zero => intro sys; exact ⟨[], by simp [revFireDue]⟩
  | succ fuel ih =>
    intro sys
    unfold revFireDue
    cases hx : extractDueRev sys.now sys.timers with
    | none => exact ⟨[], by simp⟩
    | some pair =>
      exact exists_append_trans
        (exists_append_trans
          (revFireTimer_ext { sys with timers := pair.2 } pair.1)
          (revStabilize_ext 8 (revDeps { sys with timers := pair.2 }) _))
        (ih _)

theorem revStep_ext (sys : RevSys) (ev : RevEvent) :
    ∃ d, (revStep sys ev).store = sys.store ++ d := by
  cases ev with
  | say t c =>
    simp only [revStep]
    by_cases h : c = sys.lastCommand
    · rw [if_pos h]; exact ⟨[], by simp⟩
    · rw [if_neg h]; exact revStabilize_ext 8 _ _
  | tick t => exact revFireDue_ext 8 _

theorem revRun_ext (events : List RevEvent) :
    ∀ sys, ∃ d, (revRun sys events).store = sys.store ++ d := by
  induction events with
  | nil => intro sys; exact ⟨[], by simp [revRun]⟩
  | cons ev rest ih =>
    intro sys
    have h1 : revRun sys (ev :: rest) = revRun (revStep sys ev) rest := rfl
    rw [h1]
    exact exists_append_trans (revStep_ext sys ev) (ih _)

theorem expNoteBranch_ext (sys : ExpSys) (s0 : ExpComp) :
    ∃ d, (expNoteBranch sys s0).store = sys.store ++ d := by
  unfold expNoteBranch
  cases hp : s0.pendingExpense with
  | none => exact ⟨[], by simp [hp]⟩
  | some pc =>
    cases hn : noteMatchL sys.lastCommand with
    | none => exact ⟨[], by simp [hp, hn]⟩
    | some txt =>
      exact ⟨[⟨sys.now, pc.1, pc.2, sys.now, if txt = [] then none else some txt⟩],
        by simp [hp, hn, expSave, saveExpense]⟩

theorem expEffectBody_ext (sys : ExpSys) :
    ∃ d, (expEffectBody sys).store = sys.store ++ d := by
  unfold expEffectBody
  by_cases hg : sys.lastCommand = [] ∨ sys.lastCommand = sys.comp.lastProcessed ∨
      sys.comp.lock
  · rw [if_pos hg]; exact ⟨[], by simp⟩
  · rw [if_neg hg]
    dsimp only
    cases hm : expenseAmountMatchL sys.lastCommand with
    | none =>
      obtain ⟨d, hd⟩ := expNoteBranch_ext
        { sys with
            comp := { sys.comp with lock := true, lastProcessed := sys.lastCommand },
            timers := sys.timers ++ [⟨sys.nextId, sys.now + 3, .lockRelease⟩],
            nextId := sys.nextId + 1 } sys.comp
      exact ⟨d, hd⟩
    | some tc =>
      obtain ⟨tok, catText⟩ := tc
      dsimp only
      cases hq : parseAmountToken tok with
      | none =>
        dsimp only
        obtain ⟨d, hd⟩ := expNoteBranch_ext
          { sys with
              comp := { sys.comp with lock := true, lastProcessed := sys.lastCommand },
              timers := sys.timers ++ [⟨sys.nextId, sys.now + 3, .lockRelease⟩],
              nextId := sys.nextId + 1 } sys.comp
        exact ⟨d, hd⟩
      | some a =>
        dsimp only
        by_cases ha : 0 < a
        · rw [if_pos ha]
          exact ⟨[], by simp⟩
        · rw [if_neg ha]
          obtain ⟨d, hd⟩ := expNoteBranch_ext
            { sys with
                comp := { sys.comp with lock := true, lastProcessed := sys.lastCommand },
                timers := sys.timers ++ [⟨sys.nextId, sys.now + 3, .lockRelease⟩],
                nextId := sys.nextId + 1 } sys.comp
          exact ⟨d, hd⟩

theorem expInvoke_ext (sys : ExpSys) :
    ∃ d, (expInvoke sys).store = sys.store ++ d := by
  unfold expInvoke
  exact expEffectBody_ext _

theorem expStabilize_ext (fuel : Nat) :
    ∀ prev sys, ∃ d, (expStabilize fuel prev sys).store = sys.store ++ d := by
  induction fuel with
  | zero => intro prev sys; exact ⟨[], by simp [expStabilize]⟩
  | succ fuel ih =>
    intro prev sys
    unfold expStabilize
    by_cases h : expDeps sys = prev
    · rw [if_pos h]; exact ⟨[], by simp⟩
    · rw [if_neg h]
      exact exists_append_trans (expInvoke_ext sys) (ih _ _)

theorem expFireTimer_ext (sys : ExpSys) (t : ExpTimer) :
    ∃ d, (expFireTimer sys t).store = sys.store ++ d := by
  unfold expFireTimer
  cases t.kind with
  | lockRelease => exact ⟨[], by simp⟩
  | save captPending amountValue category =>
    dsimp only
    cases captPending with
    | none => exact ⟨[], by simp⟩
    | some pc =>
      obtain ⟨p, c2⟩ := pc
      dsimp only
      by_cases h : p = amountValue
      · rw [if_pos h]
        exact ⟨[⟨sys.now, amountValue, category, sys.now, none⟩],
          by simp [expSave, saveExpense]⟩
      · rw [if_neg h]; exact ⟨[], by simp⟩

theorem expFireDue_ext (fuel : Nat) :
    ∀ sys, ∃ d, (expFireDue fuel sys).store = sys.store ++ d := by
  induction fuel with
  | zero => intro sys; exact ⟨[], by simp [expFireDue]⟩
  | succ fuel ih =>
    intro sys
    unfold expFireDue
    cases hx : extractDueExp sys.now sys.timers with
    | none => exact ⟨[], by simp⟩
    | some pair =>
      exact exists_append_trans
        (exists_append_trans
          (expFireTimer_ext { sys with timers := pair.2 } pair.1)
          (expStabilize_ext 8 (expDeps { sys with timers := pair.2 }) _))
        (ih _)

theorem expStep_ext (sys : ExpSys) (ev : ExpEvent) :
    ∃ d, (expStep sys ev).store = sys.store ++ d := by
  cases ev with
  | say t c =>
    simp only [expStep]
    by_cases h : c = sys.lastCommand
    · rw [if_pos h]; exact ⟨[], by simp⟩
    · rw [if_neg h]; exact expStabilize_ext 8 _ _
  | tick t => exact expFireDue_ext 8 _

theorem expRun_ext (events : List ExpEvent) :
    ∀ sys, ∃ d, (expRun sys events).store = sys.store ++ d := by
  induction events with
  | nil => intro sys; exact ⟨[], by simp [expRun]⟩
  | cons ev rest ih =>
    intro sys
    have h1 : expRun sys (ev :: rest) = expRun (expStep sys ev) rest := rfl
    rw [h1]
    exact exists_append_trans (expStep_ext sys ev) (ih _)

/-- C9: the store is append-only.  `saveRevenue`/`saveExpense` leave every
previously stored entry unchanged and in its original position and append
the new entry at the end; and over every event trace the tracker executors
only ever extend the store (no reachable operation updates or deletes a
stored entry). -/
theorem c9_append_only :
    (∀ (st : List RevenueEntry) (e : RevenueEntry),
        (saveRevenue st e).take st.length = st ∧
        (saveRevenue st e).drop st.length = [e]) ∧
    (∀ (st : List ExpenseEntry) (e : ExpenseEntry),
        (saveExpense st e).take st.length = st ∧
        (saveExpense st e).drop st.length = [e]) ∧
    (∀ (sys : RevSys) (events : List RevEvent),
        ∃ d, (revRun sys events).store = sys.store ++ d) ∧
    (∀ (sys : ExpSys) (events : List ExpEvent),
        ∃ d, (expRun sys events).store = sys.store ++ d) := by
  refine ⟨fun st e => ⟨?_, ?_⟩, fun st e => ⟨?_, ?_⟩,
    fun sys events => revRun_ext events sys,
    fun sys events => expRun_ext events sys⟩
  · simp [saveRevenue]
  · simp [saveRevenue]
  · simp [saveExpense]
  · simp [saveExpense]

/-- C10: `getDataForDateRange` returns exactly the entries whose timestamp
lies between the two bounds, both endpoints inclusive, preserving insertion
order; consequently `getTodayData` includes an entry whose timestamp equals
the following midnight exactly. -/
theorem c10_date_range :
    (∀ (s e : Nat) (rev : List RevenueEntry) (exps : List ExpenseEntry)
        (r : RevenueEntry),
        r ∈ (getDataForDateRange s e rev exps).1 ↔
          r ∈ rev ∧ s ≤ r.timestamp ∧ r.timestamp ≤ e) ∧
    (∀ (s e : Nat) (rev : List RevenueEntry) (exps : List ExpenseEntry)
        (x : ExpenseEntry),
        x ∈ (getDataForDateRange s e rev exps).2 ↔
          x ∈ exps ∧ s ≤ x.timestamp ∧ x.timestamp ≤ e) ∧
    (∀ (s e : Nat) (rev : List RevenueEntry) (exps : List ExpenseEntry),
        ((getDataForDateRange s e rev exps).1.Sublist rev) ∧
        ((getDataForDateRange s e rev exps).2.Sublist exps)) ∧
    (∀ (tm nm : Nat) (rev : List RevenueEntry) (exps : List ExpenseEntry)
        (r : RevenueEntry), r ∈ rev → r.timestamp = nm → tm ≤ nm →
        r ∈ (getTodayData tm nm rev exps).1) := by
  refine ⟨?_, ?_, ?_, ?_⟩
  · intro s e rev exps r
    simp [getDataForDateRange, List.mem_filter, and_assoc]
  · intro s e rev exps x
    simp [getDataForDateRange, List.mem_filter, and_assoc]
  · intro s e rev exps
    exact ⟨List.filter_sublist _, List.filter_sublist _⟩
  · intro tm nm rev exps r hr hts htm
    simp [getTodayData, getDataForDateRange, List.mem_filter]
    exact ⟨hr, by rw [hts]; exact htm, by rw [hts]⟩

/-- Witness for C10: a revenue entry timestamped exactly at the following
midnight is returned by the inclusive range. -/
theorem c10_date_range_witness :
    (⟨1, 5, 100, none⟩ : RevenueEntry) ∈ [(⟨1, 5, 100, none⟩ : RevenueEntry)] ∧
    (0 : Nat) ≤ 100 ∧
    (⟨1, 5, 100, none⟩ : RevenueEntry) ∈
      (getTodayData 0 100 [⟨1, 5, 100, none⟩] []).1 :=
  ⟨by decide, by decide,
   c10_date_range.2.2.2 0 100 [⟨1, 5, 100, none⟩] [] ⟨1, 5, 100, none⟩
     (by decide) rfl (by decide)⟩

/-! ### Frame lemmas: a transcript on which the amount branches are inert
and the note grammar fails leaves the trackers' pending state and store
untouched. -/

theorem revEffectBody_frozen (sys : RevSys)
    (hrev : revenueBranchInert sys.lastCommand)
    (hnote : noteMatchL sys.lastCommand = none) :
    revEffectBody sys = sys := by
  unfold revEffectBody
  by_cases hl : sys.lastCommand = []
  · rw [if_pos hl]
  · rw [if_neg hl]
    dsimp only
    cases hm : revenueAmountMatchL sys.lastCommand with
    | none =>
      cases hp : sys.comp.pendingAmount with
      | none => simp [hp]
      | some p => simp [hp, hnote]
    | some tok =>
      have hv := hrev tok hm
      cases hq : parseAmountToken tok with
      | none =>
        cases hp : sys.comp.pendingAmount with
        | none => simp [hq, hp]
        | some p => simp [hq, hp, hnote]
      | some a =>
        have ha : ¬ 0 < a := by
          rw [hq] at hv
          simpa [validAmount] using hv
        simp only [hq]
        rw [if_neg ha]
        cases hp : sys.comp.pendingAmount with
        | none => simp [hp]
        | some p => simp [hp, hnote]

theorem revStabilize_frozen (fuel : Nat) (prev : List Char × Option ℚ)
    (sys : RevSys) (hrev : revenueBranchInert sys.lastCommand)
    (hnote : noteMatchL sys.lastCommand = none) :
    revStabilize fuel prev sys = sys := by
  induction fuel generalizing prev with
  | zero => rfl
  | succ fuel ih =>
    unfold revStabilize
    by_cases h : revDeps sys = prev
    · rw [if_pos h]
    · rw [if_neg h]
      rw [revEffectBody_frozen sys hrev hnote]
      exact ih _

theorem revSay_frame (sys : RevSys) (t : Nat) (c : List Char)
    (hrev : revenueBranchInert c) (hnote : noteMatchL c = none) :
    (revStep sys (.say t c)).comp = sys.comp ∧
    (revStep sys (.say t c)).store = sys.store ∧
    (revStep sys (.say t c)).timers = sys.timers := by
  simp only [revStep]
  by_cases h : c = sys.lastCommand
  · rw [if_pos h]
    exact ⟨rfl, rfl, rfl⟩
  · rw [if_neg h]
    rw [revStabilize_frozen 8 _ { sys with now := t, lastCommand := c } hrev hnote]
    exact ⟨rfl, rfl, rfl⟩

theorem expNoteBranch_noNote (sys : ExpSys) (s0 : ExpComp)
    (hnote : noteMatchL sys.lastCommand = none) :
    expNoteBranch sys s0 = sys := by
  unfold expNoteBranch
  cases hp : s0.pendingExpense with
  | none => simp [hp]
  | some pc =>
    obtain ⟨p, pcat⟩ := pc
    simp [hp, hnote]

theorem expEffectBody_frame (sys : ExpSys)
    (hexp : expenseBranchInert sys.lastCommand)
    (hnote : noteMatchL sys.lastCommand = none) :
    (expEffectBody sys).comp.pendingExpense = sys.comp.pendingExpense ∧
    (expEffectBody sys).store = sys.store ∧
    (expEffectBody sys).lastCommand = sys.lastCommand := by
  unfold expEffectBody
  by_cases hg : sys.lastCommand = [] ∨ sys.lastCommand = sys.comp.lastProcessed ∨
      sys.comp.lock
  · rw [if_pos hg]
    exact ⟨rfl, rfl, rfl⟩
  · rw [if_neg hg]
    dsimp only
    cases hm : expenseAmountMatchL sys.lastCommand with
    | none =>
      dsimp only
      rw [expNoteBranch_noNote
        { sys with
            comp := { sys.comp with lock := true, lastProcessed := sys.lastCommand },
            timers := sys.timers ++ [⟨sys.nextId, sys.now + 3, .lockRelease⟩],
            nextId := sys.nextId + 1 } sys.comp hnote]
      exact ⟨rfl, rfl, rfl⟩
    | some tc =>
      obtain ⟨tok, catText⟩ := tc
      dsimp only
      have hv := hexp tok catText hm
      cases hq : parseAmountToken tok with
      | none =>
        dsimp only
        rw [expNoteBranch_noNote
          { sys with
              comp := { sys.comp with lock := true, lastProcessed := sys.lastCommand },
              timers := sys.timers ++ [⟨sys.nextId, sys.now + 3, .lockRelease⟩],
              nextId := sys.nextId + 1 } sys.comp hnote]
        exact ⟨rfl, rfl, rfl⟩
      | some a =>
        dsimp only
        have ha : ¬ 0 < a := by
          rw [hq] at hv
          simpa [validAmount] using hv
        rw [if_neg ha]
        rw [expNoteBranch_noNote
          { sys with
              comp := { sys.comp with lock := true, lastProcessed := sys.lastCommand },
              timers := sys.timers ++ [⟨sys.nextId, sys.now + 3, .lockRelease⟩],
              nextId := sys.nextId + 1 } sys.comp hnote]
        exact ⟨rfl, rfl, rfl⟩

theorem expInvoke_frame (sys : ExpSys)
    (hexp : expenseBranchInert sys.lastCommand)
    (hnote : noteMatchL sys.lastCommand = none) :
    (expInvoke sys).comp.pendingExpense = sys.comp.pendingExpense ∧
    (expInvoke sys).store = sys.store ∧
    (expInvoke sys).lastCommand = sys.lastCommand := by
  unfold expInvoke
  exact expEffectBody_frame _ hexp hnote

theorem expStabilize_frame (fuel : Nat) :
    ∀ (prev : List Char × Option (ℚ × ExpenseCategory) × List Char × Bool)
      (sys : ExpSys), expenseBranchInert sys.lastCommand →
      noteMatchL sys.lastCommand = none →
      (expStabilize fuel prev sys).comp.pendingExpense = sys.comp.pendingExpense ∧
      (expStabilize fuel prev sys).store = sys.store ∧
      (expStabilize fuel prev sys).lastCommand = sys.lastCommand := by
  induction fuel with
  | zero => intro prev sys _ _; exact ⟨rfl, rfl, rfl⟩
  | succ fuel ih =>
    intro prev sys hexp hnote
    unfold expStabilize
    by_cases h : expDeps sys = prev
    · rw [if_pos h]
      exact ⟨rfl, rfl, rfl⟩
    · rw [if_neg h]
      obtain ⟨h1, h2, h3⟩ := expInvoke_frame sys hexp hnote
      obtain ⟨g1, g2, g3⟩ := ih (expDeps sys) (expInvoke sys)
        (by rw [h3]; exact hexp) (by rw [h3]; exact hnote)
      exact ⟨by rw [g1, h1], by rw [g2, h2], by rw [g3, h3]⟩

theorem expSay_frame (sys : ExpSys) (t : Nat) (c : List Char)
    (hexp : expenseBranchInert c) (hnote : noteMatchL c = none) :
    (expStep sys (.say t c)).comp.pendingExpense = sys.comp.pendingExpense ∧
    (expStep sys (.say t c)).store = sys.store := by
  simp only [expStep]
  by_cases h : c = sys.lastCommand
  · rw [if_pos h]
    exact ⟨rfl, rfl⟩
  · rw [if_neg h]
    obtain ⟨h1, h2, _⟩ := expStabilize_frame 8 (expDeps sys)
      { sys with now := t, lastCommand := c } hexp hnote
    exact ⟨h1, h2⟩

/-- C4 (amended): every transcript that contains "profit" and matches none
of the earlier rules — the bare prompts, the revenue grammar, the note
grammar, the expense grammar, and the revenue- and expenses-status tests —
is dispatched as the profit status query.  (The bare-prompt exclusions are
derived: none of the four prompt constants contains "profit".) -/
theorem c4_amended (s : String)
    (hprofit : containsL "profit".data s.data = true)
    (hrev : revenueAmountMatchL s.data = none)
    (hnote : noteMatchL s.data = none)
    (hexp : expenseAmountMatchL s.data = none)
    (hsr : statusRevenueTestL s.data = false)
    (hse : statusExpensesTestL s.data = false) :
    processCommand s = ⟨some (.statusCmd .profit), none⟩ := by
  have hb1 : ¬(s.data = "record revenue".data ∨ s.data = "add revenue".data) := by
    rintro (h | h) <;> rw [h] at hprofit <;> exact absurd hprofit (by decide)
  have hb2 : ¬(s.data = "record expense".data ∨ s.data = "add expense".data) := by
    rintro (h | h) <;> rw [h] at hprofit <;> exact absurd hprofit (by decide)
  have hpt : statusProfitTestL s.data = true := by
    unfold statusProfitTestL
    rw [hprofit]
    rfl
  unfold processCommand processCommandL
  rw [if_neg hb1, if_neg hb2]
  simp only [hrev, hnote, hexp, hsr, hse, hpt]
  simp

/-- Witness for C4 (amended): a transcript containing "profit" together with
the substrings "revenue" and "expenses" still dispatches the profit query. -/
theorem c4_amended_witness :
    containsL "profit".data "my profit from revenue and expenses".data = true ∧
    revenueAmountMatchL "my profit from revenue and expenses".data = none ∧
    noteMatchL "my profit from revenue and expenses".data = none ∧
    expenseAmountMatchL "my profit from revenue and expenses".data = none ∧
    statusRevenueTestL "my profit from revenue and expenses".data = false ∧
    statusExpensesTestL "my profit from revenue and expenses".data = false ∧
    processCommand "my profit from revenue and expenses" =
      ⟨some (.statusCmd .profit), none⟩ :=
  ⟨by decide, by decide, by decide, by decide, by decide, by decide,
   c4_amended "my profit from revenue and expenses" (by decide) (by decide)
     (by decide) (by decide) (by decide) (by decide)⟩

/-- C6: a status-query transcript — one on which the status test of kind `k`
fires, the higher-priority status tests fail, and no amount/note grammar
matches — dispatches QueryStatus of kind `k`, and processing it leaves the
pending-entry state and the store of both trackers exactly as they were, for
every prior tracker state (Idle or AwaitingNote with any amount/category). -/
theorem c6_status_frame (s : String) (k : StatusKind)
    (hk : statusTestOfL k s.data = true)
    (hpri : statusPriorityOkL k s.data = true)
    (hrev : revenueAmountMatchL s.data = none)
    (hnote : noteMatchL s.data = none)
    (hexp : expenseAmountMatchL s.data = none) :
    processCommand s = ⟨some (.statusCmd k), none⟩ ∧
    (∀ (t : Nat) (sysR : RevSys),
      (revStep sysR (.say t s.data)).comp.pendingAmount = sysR.comp.pendingAmount ∧
      (revStep sysR (.say t s.data)).store = sysR.store) ∧
    (∀ (t : Nat) (sysE : ExpSys),
      (expStep sysE (.say t s.data)).comp.pendingExpense = sysE.comp.pendingExpense ∧
      (expStep sysE (.say t s.data)).store = sysE.store) := by
  refine ⟨?_, ?_, ?_⟩
  · have hb1 : ¬(s.data = "record revenue".data ∨ s.data = "add revenue".data) := by
      rintro (h | h) <;> rw [h] at hk <;> revert hk <;> cases k <;> decide
    have hb2 : ¬(s.data = "record expense".data ∨ s.data = "add expense".data) := by
      rintro (h | h) <;> rw [h] at hk <;> revert hk <;> cases k <;> decide
    unfold processCommand processCommandL
    rw [if_neg hb1, if_neg hb2]
    simp only [hrev, hnote, hexp]
    cases k with
    | revenue =>
      simp only [statusTestOfL] at hk
      simp [hk]
    | expenses =>
      simp only [statusTestOfL] at hk
      simp only [statusPriorityOkL] at hpri
      have h1 : statusRevenueTestL s.data = false := by
        cases hb : statusRevenueTestL s.data with
        | false => rfl
        | true => rw [hb] at hpri; simp at hpri
      simp [h1, hk]
    | profit =>
      simp only [statusTestOfL] at hk
      simp only [statusPriorityOkL] at hpri
      have h1 : statusRevenueTestL s.data = false := by
        cases hb : statusRevenueTestL s.data with
        | false => rfl
        | true => rw [hb] at hpri; simp at hpri
      have h2 : statusExpensesTestL s.data = false := by
        cases hb : statusExpensesTestL s.data with
        | false => rfl
        | true => rw [hb] at hpri; simp at hpri
      simp [h1, h2, hk]
  · intro t sysR
    have h := revSay_frame sysR t s.data
      (fun tok htok => by rw [htok] at hrev; cases hrev) hnote
    exact ⟨by rw [h.1], h.2.1⟩
  · intro t sysE
    exact expSay_frame sysE t s.data
      (fun tok catText htc => by rw [htc] at hexp; cases hexp) hnote

/-- Witness for C6: "what is my profit so far" is a profit status query, and
processing it while either tracker is AwaitingNote (revenue 15 pending, or
expense 15/Gas pending) leaves the pending entries and stores untouched. -/
theorem c6_status_frame_witness :
    statusTestOfL .profit "what is my profit so far".data = true ∧
    statusPriorityOkL .profit "what is my profit so far".data = true ∧
    revenueAmountMatchL "what is my profit so far".data = none ∧
    noteMatchL "what is my profit so far".data = none ∧
    expenseAmountMatchL "what is my profit so far".data = none ∧
    processCommand "what is my profit so far" =
      ⟨some (.statusCmd .profit), none⟩ ∧
    (revStep ⟨⟨some 15, [], some 15⟩, "record revenue 15".data, [], [⟨3, some 15, 15⟩], 2⟩
        (.say 2 "what is my profit so far".data)).comp.pendingAmount = some 15 ∧
    (expStep ⟨⟨some 15, .GAS, [], some (15, .GAS), "record expense 15 for gas".data, true⟩,
        "record expense 15 for gas".data, [], [], [], 2, 2⟩
        (.say 2 "what is my profit so far".data)).comp.pendingExpense =
      some (15, .GAS) := by
  have h := c6_status_frame "what is my profit so far" .profit
    (by decide) (by decide) (by decide) (by decide) (by decide)
  exact ⟨by decide, by decide, by decide, by decide, by decide, h.1,
    (h.2.1 2 ⟨⟨some 15, [], some 15⟩, "record revenue 15".data, [],
      [⟨3, some 15, 15⟩], 2⟩).1.trans rfl,
    (h.2.2 2 ⟨⟨some 15, .GAS, [], some (15, .GAS), "record expense 15 for gas".data, true⟩,
      "record expense 15 for gas".data, [], [], [], 2, 2⟩).1.trans rfl⟩

/-- C5 (amended): whenever the revenue amount grammar matches with an amount
token that resolves to NaN or a non-positive value, the dispatcher speaks the
distinct could-not-understand message and dispatches nothing — with no
further proviso, since the revenue branch runs first; the same holds for an
expense-grammar match with such a token provided the revenue and note
grammars do not preempt the expense branch.  And provided the transcript
also matches neither the note grammar nor the other kind's amount grammar
(the tracker components re-scan the transcript independently), the
pending-entry state and store of both trackers are unchanged. -/
theorem c5_amended (s : String) :
    (∀ tok, revenueAmountMatchL s.data = some tok →
      validAmount (parseAmountToken tok) = false →
      processCommand s = ⟨none, some .couldNotUnderstandAmount⟩ ∧
      (noteMatchL s.data = none →
       expenseAmountMatchL s.data = none →
       (∀ (t : Nat) (sysR : RevSys),
         (revStep sysR (.say t s.data)).comp.pendingAmount = sysR.comp.pendingAmount ∧
         (revStep sysR (.say t s.data)).store = sysR.store) ∧
       (∀ (t : Nat) (sysE : ExpSys),
         (expStep sysE (.say t s.data)).comp.pendingExpense = sysE.comp.pendingExpense ∧
         (expStep sysE (.say t s.data)).store = sysE.store))) ∧
    (∀ tok catText, expenseAmountMatchL s.data = some (tok, catText) →
      validAmount (parseAmountToken tok) = false →
      revenueAmountMatchL s.data = none →
      noteMatchL s.data = none →
      processCommand s = ⟨none, some .couldNotUnderstandAmount⟩ ∧
      (∀ (t : Nat) (sysR : RevSys),
        (revStep sysR (.say t s.data)).comp.pendingAmount = sysR.comp.pendingAmount ∧
        (revStep sysR (.say t s.data)).store = sysR.store) ∧
      (∀ (t : Nat) (sysE : ExpSys),
        (expStep sysE (.say t s.data)).comp.pendingExpense = sysE.comp.pendingExpense ∧
        (expStep sysE (.say t s.data)).store = sysE.store)) := by
  have hc1 : revenueAmountMatchL "record revenue".data = none := by decide
  have hc2 : revenueAmountMatchL "add revenue".data = none := by decide
  have hc3 : revenueAmountMatchL "record expense".data = none := by decide
  have hc4 : revenueAmountMatchL "add expense".data = none := by decide
  have hd1 : expenseAmountMatchL "record revenue".data = none := by decide
  have hd2 : expenseAmountMatchL "add revenue".data = none := by decide
  have hd3 : expenseAmountMatchL "record expense".data = none := by decide
  have hd4 : expenseAmountMatchL "add expense".data = none := by decide
  constructor
  · intro tok hm hv
    have hb1 : ¬(s.data = "record revenue".data ∨ s.data = "add revenue".data) := by
      rintro (h | h)
      · rw [h, hc1] at hm; cases hm
      · rw [h, hc2] at hm; cases hm
    have hb2 : ¬(s.data = "record expense".data ∨ s.data = "add expense".data) := by
      rintro (h | h)
      · rw [h, hc3] at hm; cases hm
      · rw [h, hc4] at hm; cases hm
    refine ⟨?_, ?_⟩
    · unfold processCommand processCommandL
      rw [if_neg hb1, if_neg hb2]
      simp only [hm]
      cases hq : parseAmountToken tok with
      | none => simp [hq]
      | some a =>
        have ha : ¬ 0 < a := by
          rw [hq] at hv
          simpa [validAmount] using hv
        simp only [hq]
        rw [if_neg ha]
    · intro hnote hexp
      refine ⟨?_, ?_⟩
      · intro t sysR
        have h := revSay_frame sysR t s.data
          (fun tok' htok' => by
            have : some tok = some tok' := hm.symm.trans htok'
            injection this with htt
            rw [← htt]
            exact hv) hnote
        exact ⟨by rw [h.1], h.2.1⟩
      · intro t sysE
        exact expSay_frame sysE t s.data
          (fun tok' catText' htc => by rw [htc] at hexp; cases hexp) hnote
  · intro tok catText hm hv hrev hnote
    have hb1 : ¬(s.data = "record revenue".data ∨ s.data = "add revenue".data) := by
      rintro (h | h)
      · rw [h, hd1] at hm; cases hm
      · rw [h, hd2] at hm; cases hm
    have hb2 : ¬(s.data = "record expense".data ∨ s.data = "add expense".data) := by
      rintro (h | h)
      · rw [h, hd3] at hm; cases hm
      · rw [h, hd4] at hm; cases hm
    refine ⟨?_, ?_, ?_⟩
    · unfold processCommand processCommandL
      rw [if_neg hb1, if_neg hb2]
      simp only [hrev, hnote, hm]
      cases hq : parseAmountToken tok with
      | none => simp [hq]
      | some a =>
        have ha : ¬ 0 < a := by
          rw [hq] at hv
          simpa [validAmount] using hv
        simp only [hq]
        rw [if_neg ha]
    · intro t sysR
      have h := revSay_frame sysR t s.data
        (fun tok' htok' => by rw [htok'] at hrev; cases hrev) hnote
      exact ⟨by rw [h.1], h.2.1⟩
    · intro t sysE
      exact expSay_frame sysE t s.data
        (fun tok' catText' htc => by
          have : some (tok, catText) = some (tok', catText') := hm.symm.trans htc
          injection this with htt
          injection htt with htok hcat
          rw [← htok]
          exact hv) hnote

/-- Witness for C5 (amended): "record revenue blah" matches the revenue
grammar, "blah" resolves to NaN, the dispatcher answers with the
could-not-understand message and dispatches nothing, and a tracker with a
pending amount of 7 keeps it; the message conclusion also holds with no
proviso on a transcript that additionally matches the note grammar, such as
"record revenue blah add note x". -/
theorem c5_amended_witness :
    revenueAmountMatchL "record revenue blah".data = some "blah".data ∧
    validAmount (parseAmountToken "blah".data) = false ∧
    noteMatchL "record revenue blah".data = none ∧
    expenseAmountMatchL "record revenue blah".data = none ∧
    processCommand "record revenue blah" = ⟨none, some .couldNotUnderstandAmount⟩ ∧
    (revStep ⟨⟨some 7, [], some 7⟩, [], [], [], 0⟩
        (.say 5 "record revenue blah".data)).comp.pendingAmount = some 7 ∧
    revenueAmountMatchL "record revenue blah add note x".data = some "blah".data ∧
    noteMatchL "record revenue blah add note x".data = some "x".data ∧
    processCommand "record revenue blah add note x" =
      ⟨none, some .couldNotUnderstandAmount⟩ := by
  have h := (c5_amended "record revenue blah").1 "blah".data (by decide) (by decide)
  have h2 := (c5_amended "record revenue blah add note x").1 "blah".data
    (by decide) (by decide)
  exact ⟨by decide, by decide, by decide, by decide, h.1,
    ((h.2 (by decide) (by decide)).1 5 ⟨⟨some 7, [], some 7⟩, [], [], [], 0⟩).1.trans rfl,
    by decide, by decide, h2.1⟩

end LyftProfit
